import Mathlib

/-!
# PULSE Gateway — verification of the request-admission pipeline

A shallow embedding of the `pulse_gateway` package (modules
`rate_limiter.py`, `security.py`, `app.py`) together with proofs of the
specification's testable properties.

Conventions of the embedding:
* Python `dict`s keyed by strings are association lists
  (`List (String × β)`); `dict[k] = v` is `dictInsert`, reads are
  `List.lookup` (membership-guarded reads that could raise `KeyError`
  surface as `Option` results of the embedded operation).
* Python exceptions (`ValueError`, `KeyError`, `IndexError`) make the
  embedded operation return `none`.
* Python floats in the heuristic scorer are embedded as rationals
  (`0.3` ↦ `3/10`, …).  Every comparison the source performs
  (`score > 0.7`, `min(score, 1.0)`) distinguishes the same subsets of
  trigger conditions over floats and over rationals, since no partial sum
  of `{0.3, 0.3, 0.2, 0.3}` clamped at `1.0` is within a floating-point
  rounding error of `0.7` or of the sums of the other subsets.
* `time.time()` is an explicit `nowSec : Nat` argument.
-/

/-! ## Association-list dictionaries -/

/-- `d[k] = v` on a Python dict: replace the value at the first binding of
`k`, keeping its position; append a new binding otherwise. -/
def dictInsert {β : Type} : List (String × β) → String → β → List (String × β)
  | [], k, v => [(k, v)]
  | (k1, v1) :: rest, k, v =>
    if k1 == k then (k1, v) :: rest else (k1, v1) :: dictInsert rest k v

theorem lookup_cons {β : Type} (a k : String) (v : β) (tl : List (String × β)) :
    List.lookup a ((k, v) :: tl) = if a = k then some v else List.lookup a tl := by
  cases hb : (a == k)
  · rw [List.lookup, hb]
    have h : a ≠ k := ne_of_beq_false hb
    simp [h]
  · rw [List.lookup, hb]
    have h : a = k := eq_of_beq hb
    simp [h]

theorem lookup_dictInsert_self {β : Type} (m : List (String × β)) (k : String) (v : β) :
    (dictInsert m k v).lookup k = some v := by
  induction m with
  | nil => simp [dictInsert, lookup_cons]
  | cons hd tl ih =>
    obtain ⟨k1, v1⟩ := hd
    by_cases h : k1 = k
    · simp [dictInsert, h, lookup_cons]
    · simp only [dictInsert, beq_iff_eq, h, if_false]
      rw [lookup_cons, if_neg (Ne.symm h)]
      exact ih

theorem lookup_dictInsert_ne {β : Type} (m : List (String × β)) {k k2 : String} (v : β)
    (h : k2 ≠ k) : (dictInsert m k v).lookup k2 = m.lookup k2 := by
  induction m with
  | nil => simp [dictInsert, lookup_cons, h]
  | cons hd tl ih =>
    obtain ⟨k1, v1⟩ := hd
    by_cases h1 : k1 = k
    · subst h1
      simp [dictInsert, lookup_cons, h]
    · simp only [dictInsert, beq_iff_eq, h1, if_false]
      rw [lookup_cons, lookup_cons]
      by_cases h2 : k2 = k1
      · simp [h2]
      · rw [if_neg h2, if_neg h2]
        exact ih

theorem lookup_mem {β : Type} {m : List (String × β)} {k : String} {v : β}
    (h : m.lookup k = some v) : (k, v) ∈ m := by
  induction m with
  | nil => simp [List.lookup] at h
  | cons hd tl ih =>
    obtain ⟨k1, v1⟩ := hd
    rw [lookup_cons] at h
    by_cases hk : k = k1
    · rw [if_pos hk] at h
      subst hk
      injection h with h
      simp [h]
    · rw [if_neg hk] at h
      exact List.mem_cons_of_mem _ (ih h)

/-! ## `rate_limiter.py` — the QuotaLedger -/

/-- `TIERS` table from `rate_limiter.py` (requests per day). -/
def TIERS : List (String × Nat) :=
  [("free", 100), ("pro", 10000), ("business", 1000000)]

/-- State of `RateLimiter` (`rate_limiter.py`): `_tiers`, `_keys`,
`_counts`, `_reset_day`. -/
structure RateLimiter where
  tiers : List (String × Nat)
  keys : List (String × String)
  counts : List (String × Nat)
  resetDay : List (String × Nat)
deriving DecidableEq, Repr

/-- Result dict of `RateLimiter.check`; one constructor per literal dict
of the source, carrying exactly the fields the source writes (the
`remaining` of the allowed branch is Python's `limit - count - 1`). -/
inductive CheckOutcome where
  | invalidKey (message : String)
  | rateLimited (tier : String) (limit used remaining : Nat) (message : String)
  | allowed (tier : String) (limit used : Nat) (remaining : Int)
deriving DecidableEq, Repr

/-- The `allowed` boolean that `check` returns alongside the info dict. -/
def CheckOutcome.isAllowed : CheckOutcome → Bool
  | .allowed .. => true
  | _ => false

/-- `RateLimiter._current_day`: `int(time.time()) // 86400`. -/
def currentDayOf (nowSec : Nat) : Nat := nowSec / 86400

/-- `RateLimiter.register_key`; `none` models the `ValueError` raised on
an unknown tier. -/
def RateLimiter.register_key (rl : RateLimiter) (nowSec : Nat)
    (apiKey tier : String) : Option RateLimiter :=
  if (rl.tiers.lookup tier).isNone then
    none
  else
    some { rl with
      keys := dictInsert rl.keys apiKey tier,
      counts := dictInsert rl.counts apiKey 0,
      resetDay := dictInsert rl.resetDay apiKey (currentDayOf nowSec) }

/-- The "Reset counter if new day" block of `RateLimiter.check`. -/
def RateLimiter.resetIfNewDay (rl : RateLimiter) (currentDay : Nat)
    (apiKey : String) : RateLimiter :=
  if rl.resetDay.lookup apiKey ≠ some currentDay then
    { rl with counts := dictInsert rl.counts apiKey 0,
              resetDay := dictInsert rl.resetDay apiKey currentDay }
  else rl

/-- Tail of `RateLimiter.check` after the rollover block: read the tier,
limit and count of `apiKey` and decide. -/
def RateLimiter.checkCore (rl1 : RateLimiter) (apiKey : String) :
    Option (CheckOutcome × RateLimiter) :=
  match rl1.keys.lookup apiKey with
  | none => none
  | some tier =>
    match rl1.tiers.lookup tier with
    | none => none
    | some limit =>
      match rl1.counts.lookup apiKey with
      | none => none
      | some count =>
        if count ≥ limit then
          some (.rateLimited tier limit count 0
            ("Rate limit exceeded (" ++ toString limit ++ "/day on " ++ tier
              ++ " tier). Upgrade for more."), rl1)
        else
          some (.allowed tier limit (count + 1) ((limit : Int) - count - 1),
            { rl1 with counts := dictInsert rl1.counts apiKey (count + 1) })

/-- `RateLimiter.check`: returns the info dict and the successor state;
`none` models a `KeyError` on the unguarded dict reads (unreachable from
states built through `register_key`). -/
def RateLimiter.check (rl : RateLimiter) (nowSec : Nat) (apiKey : String) :
    Option (CheckOutcome × RateLimiter) :=
  if (rl.keys.lookup apiKey).isNone then
    some (.invalidKey "Unknown API key. Register at pulse-gateway.", rl)
  else
    (rl.resetIfNewDay (currentDayOf nowSec) apiKey).checkCore apiKey

/-- Result dict of `RateLimiter.get_usage` (present-key case). -/
structure UsageInfo where
  tier : String
  limit : Nat
  used : Nat
  remaining : Int
deriving DecidableEq, Repr

/-- `RateLimiter.get_usage`: `some none` is Python's `None` for an
unknown key; the outer `none` models the `KeyError` on `_tiers[tier]`
(unreachable from states built through `register_key`). The source
performs no writes, so the embedding is a pure read of the state. -/
def RateLimiter.get_usage (rl : RateLimiter) (apiKey : String) :
    Option (Option UsageInfo) :=
  match rl.keys.lookup apiKey with
  | none => some none
  | some tier =>
    match rl.tiers.lookup tier with
    | none => none
    | some limit =>
      let count := (rl.counts.lookup apiKey).getD 0
      some (some ⟨tier, limit, count, max 0 ((limit : Int) - count)⟩)

/-! ### Per-key reasoning about the ledger -/

/-- Snapshot of everything `check` consults for one key: its tier, that
tier's limit, the stored count, and the stored reset day. -/
def KeyState (rl : RateLimiter) (k tier : String) (L c d : Nat) : Prop :=
  rl.keys.lookup k = some tier ∧ rl.tiers.lookup tier = some L ∧
  rl.counts.lookup k = some c ∧ rl.resetDay.lookup k = some d

/-- When the stored reset day already is the current day bucket, the
rollover block leaves the ledger untouched. -/
theorem resetIfNewDay_same {rl : RateLimiter} {k : String} {d : Nat}
    (h : rl.resetDay.lookup k = some d) : rl.resetIfNewDay d k = rl := by
  rw [RateLimiter.resetIfNewDay, if_neg]
  simp [h]

theorem check_step_allowed {rl : RateLimiter} {k tier : String} {L c d : Nat}
    (hs : KeyState rl k tier L c d) {t : Nat} (ht : currentDayOf t = d) (hc : c < L) :
    rl.check t k =
      some (.allowed tier L (c + 1) ((L : Int) - c - 1),
        { rl with counts := dictInsert rl.counts k (c + 1) }) ∧
    KeyState { rl with counts := dictInsert rl.counts k (c + 1) } k tier L (c + 1) d := by
  obtain ⟨hk, htier, hcnt, hday⟩ := hs
  constructor
  · rw [RateLimiter.check, ht]
    simp only [hk, Option.isNone_some, Bool.false_eq_true, if_false,
      resetIfNewDay_same hday, RateLimiter.checkCore, htier, hcnt]
    rw [if_neg (by omega)]
  · exact ⟨hk, htier, lookup_dictInsert_self _ _ _, hday⟩

theorem check_step_limited {rl : RateLimiter} {k tier : String} {L c d : Nat}
    (hs : KeyState rl k tier L c d) {t : Nat} (ht : currentDayOf t = d) (hc : L ≤ c) :
    rl.check t k = some (.rateLimited tier L c 0
      ("Rate limit exceeded (" ++ toString L ++ "/day on " ++ tier
        ++ " tier). Upgrade for more."), rl) := by
  obtain ⟨hk, htier, hcnt, hday⟩ := hs
  rw [RateLimiter.check, ht]
  simp only [hk, Option.isNone_some, Bool.false_eq_true, if_false,
    resetIfNewDay_same hday, RateLimiter.checkCore, htier, hcnt]
  rw [if_pos (by omega)]

/-- A sequence of `check` calls at the given times, keeping only the
final ledger state. -/
def RateLimiter.checkSeq (rl : RateLimiter) (apiKey : String) : List Nat → Option RateLimiter
  | [] => some rl
  | t :: ts =>
    match rl.check t apiKey with
    | none => none
    | some (_, rl1) => rl1.checkSeq apiKey ts

theorem checkSeq_allowed {k tier : String} {L d : Nat} :
    ∀ (ts : List Nat) (rl : RateLimiter) (c : Nat),
      KeyState rl k tier L c d → (∀ t ∈ ts, currentDayOf t = d) →
      c + ts.length ≤ L →
      ∃ rl1, rl.checkSeq k ts = some rl1 ∧ KeyState rl1 k tier L (c + ts.length) d
  | [], rl, c, hs, _, _ => ⟨rl, rfl, by simpa using hs⟩
  | t :: ts, rl, c, hs, hts, hle => by
    have ht : currentDayOf t = d := hts t (List.mem_cons_self _ _)
    have hc : c < L := by simp only [List.length_cons] at hle; omega
    obtain ⟨hcheck, hs1⟩ := check_step_allowed hs ht hc
    obtain ⟨rl1, hseq, hs2⟩ :=
      checkSeq_allowed ts _ (c + 1) hs1
        (fun u hu => hts u (List.mem_cons_of_mem _ hu))
        (by simp only [List.length_cons] at hle; omega)
    refine ⟨rl1, ?_, ?_⟩
    · rw [RateLimiter.checkSeq, hcheck]
      exact hseq
    · rw [List.length_cons, show c + (ts.length + 1) = c + 1 + ts.length by omega]
      exact hs2

/-- **C1.** For a key registered with a tier whose daily limit is `L`,
starting from a stored count of 0 in the current day bucket, the first
`L` calls of `check` return `allowed = true` with `used = i + 1` and
`remaining = L - (i + 1)` for `i = 0, …, L - 1` (so `remaining` strictly
decreases `L-1, …, 0` and `remaining = limit - used`), and the
`(L+1)`-th call returns the `rate_limited` dict with `used = L` and
`remaining = 0`, leaving the stored ledger state unchanged. -/
theorem C1_quota_exhaustion {rl : RateLimiter} {k tier : String} {L d : Nat}
    (hkey : rl.keys.lookup k = some tier)
    (htier : rl.tiers.lookup tier = some L)
    (hcnt : rl.counts.lookup k = some 0)
    (hday : rl.resetDay.lookup k = some d)
    (times : List Nat) (htimes : ∀ t ∈ times, currentDayOf t = d) :
    (∀ i (hi : i < times.length), i < L →
      ∃ rli, rl.checkSeq k (times.take i) = some rli ∧
        rli.check (times.get ⟨i, hi⟩) k =
          some (.allowed tier L (i + 1) ((L : Int) - i - 1),
            { rli with counts := dictInsert rli.counts k (i + 1) })) ∧
    (times.length = L → ∀ t, currentDayOf t = d →
      ∃ rlL, rl.checkSeq k times = some rlL ∧
        rlL.check t k = some (.rateLimited tier L L 0
          ("Rate limit exceeded (" ++ toString L ++ "/day on " ++ tier
            ++ " tier). Upgrade for more."), rlL)) := by
  have hs0 : KeyState rl k tier L 0 d := ⟨hkey, htier, hcnt, hday⟩
  constructor
  · intro i hi hiL
    have htake : ∀ t ∈ times.take i, currentDayOf t = d :=
      fun t ht => htimes t (List.take_subset _ _ ht)
    have hlen : (times.take i).length = i := by
      rw [List.length_take]; omega
    obtain ⟨rli, hseq, hsi⟩ :=
      checkSeq_allowed (times.take i) rl 0 hs0 htake (by omega)
    rw [hlen, Nat.zero_add] at hsi
    refine ⟨rli, hseq, ?_⟩
    have ht : currentDayOf (times.get ⟨i, hi⟩) = d :=
      htimes _ (times.get_mem _ _)
    exact (check_step_allowed hsi ht hiL).1
  · intro hlenL t ht
    obtain ⟨rlL, hseq, hsL⟩ :=
      checkSeq_allowed times rl 0 hs0 htimes (by omega)
    rw [hlenL, Nat.zero_add] at hsL
    exact ⟨rlL, hseq, check_step_limited hsL ht (le_refl L)⟩

/-- Concrete one-slot ledger used to instantiate `C1_quota_exhaustion`. -/
def rlC1 : RateLimiter :=
  ⟨[("free", 1)], [("k", "free")], [("k", 0)], [("k", 0)]⟩

theorem C1_quota_exhaustion_witness :
    (∀ i (hi : i < ([7] : List Nat).length), i < 1 →
      ∃ rli, rlC1.checkSeq "k" (([7] : List Nat).take i) = some rli ∧
        rli.check (([7] : List Nat).get ⟨i, hi⟩) "k" =
          some (.allowed "free" 1 (i + 1) (((1 : Nat) : Int) - i - 1),
            { rli with counts := dictInsert rli.counts "k" (i + 1) })) ∧
    (([7] : List Nat).length = 1 → ∀ t, currentDayOf t = 0 →
      ∃ rlL, rlC1.checkSeq "k" [7] = some rlL ∧
        rlL.check t "k" = some (.rateLimited "free" 1 1 0
          ("Rate limit exceeded (" ++ toString (1 : Nat) ++ "/day on " ++ "free"
            ++ " tier). Upgrade for more."), rlL)) :=
  @C1_quota_exhaustion rlC1 "k" "free" 1 0 (by decide) (by decide) (by decide)
    (by decide) [7] (by decide)

/-- **C8.** Day-boundary rollover: if the stored `lastResetDay` of a
registered key differs from the current day bucket
(`currentDay = nowSec / 86400`), `check` resets the stored count to 0,
updates the stored reset day to the current bucket, and proceeds
normally, so (the tier table assigning a positive daily ceiling, as the
data model requires) the call returns `allowed` with `used = 1`
regardless of the prior count. -/
theorem C8_day_rollover {rl : RateLimiter} {k tier : String} {L t : Nat}
    (hkey : rl.keys.lookup k = some tier)
    (htier : rl.tiers.lookup tier = some L)
    (hL : 0 < L)
    (hday : rl.resetDay.lookup k ≠ some (currentDayOf t)) :
    ∃ rl1, rl.check t k = some (.allowed tier L 1 ((L : Int) - 0 - 1), rl1) ∧
      rl1.counts.lookup k = some 1 ∧
      rl1.resetDay.lookup k = some (currentDayOf t) ∧
      rl1.keys = rl.keys ∧ rl1.tiers = rl.tiers := by
  have hreset : rl.resetIfNewDay (currentDayOf t) k =
      { rl with counts := dictInsert rl.counts k 0,
                resetDay := dictInsert rl.resetDay k (currentDayOf t) } := by
    rw [RateLimiter.resetIfNewDay, if_pos hday]
  refine ⟨{ rl with
      counts := dictInsert (dictInsert rl.counts k 0) k 1,
      resetDay := dictInsert rl.resetDay k (currentDayOf t) }, ?_, ?_, ?_, rfl, rfl⟩
  · rw [RateLimiter.check]
    simp only [hkey, Option.isNone_some, Bool.false_eq_true, if_false, hreset,
      RateLimiter.checkCore, htier, lookup_dictInsert_self]
    rw [if_neg (by omega)]
    norm_num
  · exact lookup_dictInsert_self _ _ _
  · exact lookup_dictInsert_self _ _ _

/-- Concrete ledger whose stored reset day (bucket 0) precedes the
current bucket, used to instantiate `C8_day_rollover`. -/
def rlC8 : RateLimiter :=
  ⟨[("free", 100)], [("k", "free")], [("k", 7)], [("k", 0)]⟩

theorem C8_day_rollover_witness :
    ∃ rl1, rlC8.check 432000 "k" =
        some (.allowed "free" 100 1 (((100 : Nat) : Int) - 0 - 1), rl1) ∧
      rl1.counts.lookup "k" = some 1 ∧
      rl1.resetDay.lookup "k" = some (currentDayOf 432000) ∧
      rl1.keys = rlC8.keys ∧ rl1.tiers = rlC8.tiers :=
  @C8_day_rollover rlC8 "k" "free" 100 432000 (by decide) (by decide)
    (by decide) (by decide)

/-- **C9.** For an unregistered key, `check` returns the not-allowed
`invalid_key` dict and the ledger state unchanged, and `get_usage`
returns Python's `None`; for a registered key (whose tier is in the tier
table, as holds for every key admitted by `register_key`), `get_usage`
returns the current tier, limit, used and remaining — the embedding of
`get_usage` is a pure read, mirroring that the source performs no
writes. -/
theorem C9_unknown_key_and_usage :
    (∀ (rl : RateLimiter) (t : Nat) (k : String), rl.keys.lookup k = none →
      rl.check t k =
          some (.invalidKey "Unknown API key. Register at pulse-gateway.", rl) ∧
        rl.get_usage k = some none) ∧
    (∀ (rl : RateLimiter) (k tier : String) (L : Nat),
      rl.keys.lookup k = some tier → rl.tiers.lookup tier = some L →
      rl.get_usage k = some (some ⟨tier, L, (rl.counts.lookup k).getD 0,
        max 0 ((L : Int) - (rl.counts.lookup k).getD 0)⟩)) := by
  constructor
  · intro rl t k hk
    constructor
    · rw [RateLimiter.check]
      simp [hk]
    · rw [RateLimiter.get_usage]
      simp [hk]
  · intro rl k tier L hk htier
    rw [RateLimiter.get_usage]
    simp [hk, htier]

/-- Two-key ledger (one registered key) instantiating
`C9_unknown_key_and_usage`. -/
def rlC9 : RateLimiter :=
  ⟨[("free", 100)], [("k", "free")], [("k", 3)], [("k", 0)]⟩

theorem C9_unknown_key_and_usage_witness :
    (rlC9.check 0 "ghost" =
        some (.invalidKey "Unknown API key. Register at pulse-gateway.", rlC9) ∧
      rlC9.get_usage "ghost" = some none) ∧
    rlC9.get_usage "k" = some (some ⟨"free", 100, (rlC9.counts.lookup "k").getD 0,
      max 0 (((100 : Nat) : Int) - (rlC9.counts.lookup "k").getD 0)⟩) :=
  ⟨C9_unknown_key_and_usage.1 rlC9 0 "ghost" (by decide),
   C9_unknown_key_and_usage.2 rlC9 "k" "free" 100 (by decide) (by decide)⟩

/-! ### The quota-count invariant -/

/-- Well-formedness of the ledger: every registered key names a tier of
the tier table and its stored count never exceeds that tier's limit. -/
def RateLimiter.WF (rl : RateLimiter) : Prop :=
  ∀ k tier, rl.keys.lookup k = some tier →
    ∃ L, rl.tiers.lookup tier = some L ∧ (rl.counts.lookup k).getD 0 ≤ L

theorem WF_setCount {rl : RateLimiter} (hWF : rl.WF) {k : String} {c : Nat}
    (hc : ∀ tier L, rl.keys.lookup k = some tier →
      rl.tiers.lookup tier = some L → c ≤ L)
    (rd : List (String × Nat)) :
    RateLimiter.WF { rl with counts := dictInsert rl.counts k c, resetDay := rd } := by
  intro k2 tier2 hk2
  obtain ⟨L, hL, hle⟩ := hWF k2 tier2 hk2
  refine ⟨L, hL, ?_⟩
  show ((dictInsert rl.counts k c).lookup k2).getD 0 ≤ L
  by_cases h : k2 = k
  · subst h
    rw [lookup_dictInsert_self]
    exact hc tier2 L hk2 hL
  · rw [lookup_dictInsert_ne _ _ h]
    exact hle

theorem register_preserves_WF {rl rl1 : RateLimiter} {t : Nat} {k tier : String}
    (hWF : rl.WF) (h : rl.register_key t k tier = some rl1) : rl1.WF := by
  rw [RateLimiter.register_key] at h
  split at h
  · exact absurd h (by simp)
  · rename_i htier
    obtain ⟨L, hL⟩ : ∃ L, rl.tiers.lookup tier = some L := by
      cases hT : rl.tiers.lookup tier
      · rw [hT] at htier
        simp at htier
      · exact ⟨_, rfl⟩
    injection h with h
    subst h
    intro k2 tier2 hk2
    have hk2a : List.lookup k2 (dictInsert rl.keys k tier) = some tier2 := hk2
    show ∃ L2, rl.tiers.lookup tier2 = some L2 ∧
      ((dictInsert rl.counts k 0).lookup k2).getD 0 ≤ L2
    by_cases hk : k2 = k
    · rw [hk, lookup_dictInsert_self] at hk2a
      injection hk2a with hk2a
      rw [← hk2a]
      refine ⟨L, hL, ?_⟩
      rw [hk, lookup_dictInsert_self]
      simp
    · rw [lookup_dictInsert_ne _ _ hk] at hk2a
      obtain ⟨L2, hL2, hle⟩ := hWF k2 tier2 hk2a
      exact ⟨L2, hL2, by rw [lookup_dictInsert_ne _ _ hk]; exact hle⟩

theorem resetIfNewDay_preserves_WF {rl : RateLimiter} (hWF : rl.WF)
    (d : Nat) (k : String) : (rl.resetIfNewDay d k).WF := by
  rw [RateLimiter.resetIfNewDay]
  split
  · exact WF_setCount hWF (fun tier L _ _ => Nat.zero_le L) _
  · exact hWF

theorem check_preserves_WF {rl rl1 : RateLimiter} {t : Nat} {k : String}
    {out : CheckOutcome} (hWF : rl.WF) (h : rl.check t k = some (out, rl1)) :
    rl1.WF := by
  have hR : (rl.resetIfNewDay (currentDayOf t) k).WF :=
    resetIfNewDay_preserves_WF hWF (currentDayOf t) k
  rw [RateLimiter.check] at h
  split at h
  · simp only [Option.some.injEq, Prod.mk.injEq] at h
    rw [← h.2]
    exact hWF
  · generalize hG : rl.resetIfNewDay (currentDayOf t) k = rlR at h hR
    rw [RateLimiter.checkCore] at h
    split at h
    · exact absurd h (by simp)
    · rename_i tier hkey
      split at h
      · exact absurd h (by simp)
      · rename_i limit hlimit
        split at h
        · exact absurd h (by simp)
        · rename_i count hcount
          split at h
          · simp only [Option.some.injEq, Prod.mk.injEq] at h
            rw [← h.2]
            exact hR
          · rename_i hlt
            simp only [Option.some.injEq, Prod.mk.injEq] at h
            rw [← h.2]
            refine WF_setCount hR ?_ _
            intro tier2 L2 hk2 hL2
            rw [hkey] at hk2
            injection hk2 with hk2
            subst hk2
            rw [hlimit] at hL2
            injection hL2 with hL2
            omega

/-- A decidable sufficient condition for `RateLimiter.WF` on concrete
ledgers. -/
theorem WF_of_all (rl : RateLimiter)
    (h : (rl.keys.all fun p =>
      match rl.tiers.lookup p.2 with
      | some L => decide ((rl.counts.lookup p.1).getD 0 ≤ L)
      | none => false) = true) : rl.WF := by
  intro k tier hk
  have hmem := lookup_mem hk
  have hp := List.all_eq_true.mp h _ hmem
  cases hT : rl.tiers.lookup tier
  · rw [hT] at hp
    simp at hp
  · rename_i L
    rw [hT] at hp
    exact ⟨L, rfl, of_decide_eq_true hp⟩

/-- **C10.** Every ledger operation preserves the invariant that each
registered key's stored count lies between 0 and its tier limit
(`register_key` resets the count to 0, `check` increments only when the
count is strictly below the limit, and the rollover block resets to 0),
and under this invariant the `remaining` that `get_usage` computes as
`max(0, limit - used)` equals `limit - used` and is never negative. -/
theorem C10_count_invariant :
    (∀ (rl rl1 : RateLimiter) (t : Nat) (k tier : String),
      rl.WF → rl.register_key t k tier = some rl1 → rl1.WF) ∧
    (∀ (rl rl1 : RateLimiter) (t : Nat) (k : String) (out : CheckOutcome),
      rl.WF → rl.check t k = some (out, rl1) → rl1.WF) ∧
    (∀ (rl : RateLimiter) (k tier : String) (L : Nat),
      rl.WF → rl.keys.lookup k = some tier → rl.tiers.lookup tier = some L →
      rl.get_usage k = some (some ⟨tier, L, (rl.counts.lookup k).getD 0,
        (L : Int) - ((rl.counts.lookup k).getD 0 : Nat)⟩) ∧
      (0 : Int) ≤ (L : Int) - ((rl.counts.lookup k).getD 0 : Nat)) := by
  refine ⟨fun rl rl1 t k tier hWF h => register_preserves_WF hWF h,
    fun rl rl1 t k out hWF h => check_preserves_WF hWF h,
    fun rl k tier L hWF hk htier => ?_⟩
  obtain ⟨L2, hL2, hle⟩ := hWF k tier hk
  rw [htier] at hL2
  injection hL2 with hL2
  subst hL2
  have hnn : (0 : Int) ≤ (L : Int) - ((rl.counts.lookup k).getD 0 : Nat) := by
    omega
  constructor
  · rw [RateLimiter.get_usage]
    simp only [hk, htier]
    rw [max_eq_right hnn]
  · exact hnn

/-- Concrete ledger instantiating `C10_count_invariant`. -/
def rlC10 : RateLimiter :=
  ⟨[("free", 2)], [("k", "free")], [("k", 1)], [("k", 0)]⟩

theorem C10_count_invariant_witness :
    rlC10.get_usage "k" = some (some ⟨"free", 2, (rlC10.counts.lookup "k").getD 0,
      ((2 : Nat) : Int) - ((rlC10.counts.lookup "k").getD 0 : Nat)⟩) ∧
    (0 : Int) ≤ ((2 : Nat) : Int) - ((rlC10.counts.lookup "k").getD 0 : Nat) :=
  C10_count_invariant.2.2 rlC10 "k" "free" 2 (WF_of_all _ (by decide))
    (by decide) (by decide)

/-! ## Python string primitives

Core `String` operations like `String.toLower`, `String.trim` and
`String.split` are byte-position based and do not reduce inside the
kernel, so the embedding computes Python's `str.lower()`, `str.strip()`,
`str.split()` and slicing over the character list of the string.  The
keys and marker strings the gateway compares are ASCII, where
`Char.toLower` agrees with Python's `str.lower()`. -/

/-- `str.lower()` (ASCII). -/
def pyLower (s : String) : String := ⟨s.data.map Char.toLower⟩

/-- The whitespace characters `str.strip()` / `str.split()` use (ASCII
range). -/
def pySpace (c : Char) : Bool :=
  c == ' ' || c == '\t' || c == '\n' || c == '\r' || c == '\x0b' || c == '\x0c'

/-- `str.strip()`. -/
def pyStrip (s : String) : String :=
  ⟨((s.data.dropWhile pySpace).reverse.dropWhile pySpace).reverse⟩

/-- `str[:n]` (character slicing). -/
def pyTake (s : String) (n : Nat) : String := ⟨s.data.take n⟩

/-- Helper of `pySplit`: current (reversed) word accumulator. -/
def pySplitAux (acc : List Char) : List Char → List String
  | [] => if acc.isEmpty then [] else [⟨acc.reverse⟩]
  | c :: cs =>
    if pySpace c then
      if acc.isEmpty then pySplitAux [] cs
      else ⟨acc.reverse⟩ :: pySplitAux [] cs
    else pySplitAux (c :: acc) cs

/-- `str.split()`: split on whitespace runs, no empty words. -/
def pySplit (s : String) : List String := pySplitAux [] s.data

/-- `needle` starts the list `hay`. -/
def leadsWith : List Char → List Char → Bool
  | [], _ => true
  | _ :: _, [] => false
  | a :: as, b :: bs => a == b && leadsWith as bs

/-- `needle` occurs somewhere in the list `hay`. -/
def occursIn (needle : List Char) : List Char → Bool
  | [] => leadsWith needle []
  | b :: bs => leadsWith needle (b :: bs) || occursIn needle bs

/-- Python's `needle in hay` on strings. -/
def containsSub (hay needle : String) : Bool := occursIn needle.data hay.data

/-! ## `security.py` — parameter sanitization -/

mutual
/-- A Python value as `sanitize_parameters` distinguishes them: a `dict`
(with string keys) or anything else, carried opaquely as its `str()`
rendering. -/
inductive PValue where
  | atom (s : String)
  | dict (entries : PDict)

/-- A Python dict with string keys, in insertion order. -/
inductive PDict where
  | nil
  | cons (key : String) (value : PValue) (rest : PDict)
end

/-- `d.get(key)`. -/
def PDict.get : PDict → String → Option PValue
  | .nil, _ => none
  | .cons k v rest, key => if k == key then some v else rest.get key

/-- The `sensitive_keys` set of `sanitize_parameters`. -/
def SENSITIVE_KEYS : List String :=
  ["api_key", "api_secret", "secret", "password", "token",
   "access_token", "secret_key", "private_key", "passphrase",
   "credentials", "auth", "authorization"]

mutual
/-- One iteration of the `sanitize_parameters` loop body for the binding
`key ↦ value`. -/
def sanitizeEntry (key : String) (value : PValue) : PValue :=
  if SENSITIVE_KEYS.contains (pyLower key) then PValue.atom "***REDACTED***"
  else
    match value with
    | PValue.dict d => PValue.dict (sanitize_parameters d)
    | PValue.atom s => PValue.atom s
termination_by structural value

/-- `sanitize_parameters`: redact values of sensitive keys
(case-insensitively), recurse into nested dict values, pass everything
else through. -/
def sanitize_parameters : PDict → PDict
  | .nil => .nil
  | .cons key value rest =>
    .cons key (sanitizeEntry key value) (sanitize_parameters rest)
termination_by structural p => p
end

mutual
/-- No value at any nesting depth sits under a sensitive key. -/
def cleanValue : PValue → Bool
  | .atom _ => true
  | .dict d => cleanDict d
termination_by structural v => v

/-- No key of the mapping, at any nesting depth, is in the sensitive
set. -/
def cleanDict : PDict → Bool
  | .nil => true
  | .cons key value rest =>
    !(SENSITIVE_KEYS.contains (pyLower key)) && cleanValue value && cleanDict rest
termination_by structural p => p
end

theorem sanitizeEntry_sensitive (key : String) (value : PValue)
    (hk : SENSITIVE_KEYS.contains (pyLower key) = true) :
    sanitizeEntry key value = PValue.atom "***REDACTED***" := by
  cases value with
  | atom s => rw [sanitizeEntry, if_pos hk]
  | dict d => rw [sanitizeEntry, if_pos hk]

theorem sanitizeEntry_atom (key s : String)
    (hk : SENSITIVE_KEYS.contains (pyLower key) = false) :
    sanitizeEntry key (PValue.atom s) = PValue.atom s := by
  rw [sanitizeEntry, if_neg (by rw [hk]; exact Bool.false_ne_true)]

theorem sanitizeEntry_dict (key : String) (d : PDict)
    (hk : SENSITIVE_KEYS.contains (pyLower key) = false) :
    sanitizeEntry key (PValue.dict d) = PValue.dict (sanitize_parameters d) := by
  rw [sanitizeEntry, if_neg (by rw [hk]; exact Bool.false_ne_true)]

mutual
theorem sanitizeEntry_idem (key : String) (value : PValue) :
    sanitizeEntry key (sanitizeEntry key value) = sanitizeEntry key value := by
  cases hk : SENSITIVE_KEYS.contains (pyLower key) with
  | true => rw [sanitizeEntry_sensitive _ _ hk, sanitizeEntry_sensitive _ _ hk]
  | false =>
    cases value with
    | atom s => rw [sanitizeEntry_atom _ _ hk, sanitizeEntry_atom _ _ hk]
    | dict d =>
      rw [sanitizeEntry_dict _ _ hk, sanitizeEntry_dict _ _ hk, sanitize_idem d]

theorem sanitize_idem (p : PDict) :
    sanitize_parameters (sanitize_parameters p) = sanitize_parameters p := by
  cases p with
  | nil => rfl
  | cons key value rest =>
    simp only [sanitize_parameters]
    rw [sanitizeEntry_idem key value, sanitize_idem rest]
end

mutual
theorem sanitizeEntry_clean (key : String) (value : PValue)
    (hk : SENSITIVE_KEYS.contains (pyLower key) = false)
    (hv : cleanValue value = true) : sanitizeEntry key value = value := by
  cases value with
  | atom s => exact sanitizeEntry_atom _ _ hk
  | dict d =>
    rw [cleanValue] at hv
    rw [sanitizeEntry_dict _ _ hk, sanitize_clean d hv]

theorem sanitize_clean (p : PDict) (h : cleanDict p = true) :
    sanitize_parameters p = p := by
  cases p with
  | nil => rfl
  | cons key value rest =>
    rw [cleanDict] at h
    simp only [Bool.and_eq_true, Bool.not_eq_true'] at h
    obtain ⟨⟨hk, hv⟩, hr⟩ := h
    simp only [sanitize_parameters]
    rw [sanitizeEntry_clean key value hk hv, sanitize_clean rest hr]
end

/-- **C6.** `sanitize_parameters` is idempotent, never alters a mapping
with no sensitive key at any nesting depth, and replaces the value of
every sensitive key (matched case-insensitively against the fixed set)
by the fixed redaction marker while recursing into nested dict values
only. -/
theorem C6_sanitize_idempotent :
    (∀ p, sanitize_parameters (sanitize_parameters p) = sanitize_parameters p) ∧
    (∀ p, cleanDict p = true → sanitize_parameters p = p) ∧
    (∀ key value rest, SENSITIVE_KEYS.contains (pyLower key) = true →
      sanitize_parameters (.cons key value rest) =
        .cons key (PValue.atom "***REDACTED***") (sanitize_parameters rest)) ∧
    (∀ key d rest, SENSITIVE_KEYS.contains (pyLower key) = false →
      sanitize_parameters (.cons key (PValue.dict d) rest) =
        .cons key (PValue.dict (sanitize_parameters d)) (sanitize_parameters rest)) := by
  refine ⟨sanitize_idem, sanitize_clean, ?_, ?_⟩
  · intro key value rest hk
    simp only [sanitize_parameters]
    rw [sanitizeEntry_sensitive _ _ hk]
  · intro key d rest hk
    simp only [sanitize_parameters]
    rw [sanitizeEntry_dict _ _ hk]

theorem C6_sanitize_idempotent_witness :
    sanitize_parameters (.cons "symbol" (PValue.atom "BTCUSDT")
      (.cons "config" (PValue.dict (.cons "timeout" (PValue.atom "10") .nil)) .nil)) =
    .cons "symbol" (PValue.atom "BTCUSDT")
      (.cons "config" (PValue.dict (.cons "timeout" (PValue.atom "10") .nil)) .nil) :=
  C6_sanitize_idempotent.2.1
    (.cons "symbol" (PValue.atom "BTCUSDT")
      (.cons "config" (PValue.dict (.cons "timeout" (PValue.atom "10") .nil)) .nil))
    (by decide)

/-! ## `security.py` — `SecurityFilter._heuristic_check` -/

/-- The special-character set of `_heuristic_check`. -/
def SPECIAL_CHARS : List Char := "\x7b\x7d[]<>\\|`~".data

/-- `sum(1 for c in text if c in SPECIAL_CHARS)`. -/
def specialCount (t : String) : Nat :=
  (t.data.filter fun c => SPECIAL_CHARS.contains c).length

/-- Trigger: very long input (possible prompt stuffing). -/
def trigLong (t : String) : Bool := decide (t.length > 5000)

/-- Trigger: more than 20 special characters (encoding attacks). -/
def trigSpecial (t : String) : Bool := decide (specialCount t > 20)

/-- Trigger: code-like substrings. -/
def trigCode (t : String) : Bool :=
  containsSub t "```" || containsSub t "import " || containsSub t "eval("

/-- Trigger: more than 10 words with a distinct-to-total ratio below
0.3 (excessive repetition). -/
def trigRep (t : String) : Bool :=
  let words := pySplit t
  decide (words.length > 10) &&
    decide (((words.dedup.length : ℚ) / (words.length : ℚ)) < 3 / 10)

/-- `SecurityFilter._heuristic_check`: sum the triggered contributions,
capped at 1. -/
def heuristicScore (t : String) : ℚ :=
  min ((if trigLong t then 3 / 10 else 0) + (if trigSpecial t then 3 / 10 else 0)
    + (if trigCode t then 2 / 10 else 0) + (if trigRep t then 3 / 10 else 0)) 1

theorem scorePart_nonneg (b : Bool) (v : ℚ) (hv : 0 ≤ v) :
    0 ≤ if b then v else 0 := by
  cases b with
  | false => simp
  | true => simpa using hv

theorem scorePart_mono {a b : Bool} (v : ℚ) (hv : 0 ≤ v)
    (h : a = true → b = true) :
    (if a then v else 0) ≤ if b then v else 0 := by
  cases a with
  | false =>
    cases b with
    | false => simp
    | true => simpa using hv
  | true => rw [h rfl]

/-- **C7.** The heuristic suspicion score is bounded — it lies in
`[0, 1]` for every text — and monotonic: whenever every trigger
condition (length, special characters, code markers, repetition)
satisfied by the first text is also satisfied by the second, the second
text's score is at least the first's. -/
theorem C7_heuristic_monotone_bounded :
    (∀ t, 0 ≤ heuristicScore t ∧ heuristicScore t ≤ 1) ∧
    (∀ t1 t2,
      (trigLong t1 = true → trigLong t2 = true) →
      (trigSpecial t1 = true → trigSpecial t2 = true) →
      (trigCode t1 = true → trigCode t2 = true) →
      (trigRep t1 = true → trigRep t2 = true) →
      heuristicScore t1 ≤ heuristicScore t2) := by
  constructor
  · intro t
    rw [heuristicScore]
    constructor
    · refine le_min ?_ zero_le_one
      have n1 := scorePart_nonneg (trigLong t) (3 / 10) (by norm_num)
      have n2 := scorePart_nonneg (trigSpecial t) (3 / 10) (by norm_num)
      have n3 := scorePart_nonneg (trigCode t) (2 / 10) (by norm_num)
      have n4 := scorePart_nonneg (trigRep t) (3 / 10) (by norm_num)
      have := add_nonneg (add_nonneg (add_nonneg n1 n2) n3) n4
      linarith
    · exact min_le_right _ _
  · intro t1 t2 h1 h2 h3 h4
    rw [heuristicScore, heuristicScore]
    refine min_le_min ?_ le_rfl
    have m1 := scorePart_mono (a := trigLong t1) (3 / 10) (by norm_num) h1
    have m2 := scorePart_mono (a := trigSpecial t1) (3 / 10) (by norm_num) h2
    have m3 := scorePart_mono (a := trigCode t1) (2 / 10) (by norm_num) h3
    have m4 := scorePart_mono (a := trigRep t1) (3 / 10) (by norm_num) h4
    exact add_le_add (add_le_add (add_le_add m1 m2) m3) m4

theorem C7_heuristic_monotone_bounded_witness :
    (0 ≤ heuristicScore "hello world" ∧ heuristicScore "hello world" ≤ 1) ∧
    heuristicScore "hello world" ≤ heuristicScore "hello ``` import eval( world" :=
  ⟨C7_heuristic_monotone_bounded.1 "hello world",
   C7_heuristic_monotone_bounded.2 "hello world" "hello ``` import eval( world"
     (by decide) (by decide) (by decide) (by decide)⟩

/-! ## `security.py` — `SecurityFilter` -/

/-- A compiled case-insensitive regex of the catalog, abstracted as its
`search` behaviour on the normalized text: `none` for no match, `some m`
when the first match's `group()` is `m`.  The regex engine itself is
external to the repository. -/
abbrev Matcher := String → Option String

/-- Verdict dict of `SecurityFilter.check`: `blocked`, `category`,
`pattern` (matched substring), `confidence`. -/
structure Verdict where
  blocked : Bool
  category : Option String
  pattern : Option String
  confidence : ℚ
deriving DecidableEq, Repr

/-- State of `SecurityFilter`: the signature list plus the two
counters. -/
structure SecurityFilter where
  patterns : List (Matcher × String)
  blockedCount : Nat
  passedCount : Nat

/-- `SecurityFilter.__init__`: the built-in compiled catalog first, any
custom patterns appended after it, counters at zero. -/
def SecurityFilter.make (builtins custom : List (Matcher × String)) :
    SecurityFilter :=
  ⟨builtins ++ custom, 0, 0⟩

/-- The `for compiled_pattern, category in self._patterns` loop of
`check`: first search hit wins, yielding that signature's category and
the matched substring. -/
def findMatch : List (Matcher × String) → String → Option (String × String)
  | [], _ => none
  | (p, category) :: rest, t =>
    match p t with
    | some m => some (category, m)
    | none => findMatch rest t

/-- `SecurityFilter.check`: empty/whitespace-only input passes;
otherwise normalize (lower + strip), try the signatures in order, then
fall back to the heuristic score with threshold 0.7. -/
def SecurityFilter.check (sf : SecurityFilter) (text : String) :
    Verdict × SecurityFilter :=
  if text == "" || pyStrip text == "" then
    (⟨false, none, none, 0⟩, { sf with passedCount := sf.passedCount + 1 })
  else
    let textLower := pyStrip (pyLower text)
    match findMatch sf.patterns textLower with
    | some (category, m) =>
      (⟨true, some category, some m, 9 / 10⟩,
        { sf with blockedCount := sf.blockedCount + 1 })
    | none =>
      let suspicion := heuristicScore textLower
      if suspicion > 7 / 10 then
        (⟨true, some "heuristic", none, suspicion⟩,
          { sf with blockedCount := sf.blockedCount + 1 })
      else
        (⟨false, none, none, 0⟩, { sf with passedCount := sf.passedCount + 1 })

theorem findMatch_isSome_of_mem {l : List (Matcher × String)} {t : String}
    (h : ∃ p ∈ l, (p.1 t).isSome) : (findMatch l t).isSome := by
  induction l with
  | nil => simp at h
  | cons hd tl ih =>
    obtain ⟨p, hp, hsome⟩ := h
    obtain ⟨m, c⟩ := hd
    rw [findMatch]
    cases hm : m t with
    | some s => rfl
    | none =>
      rcases List.mem_cons.mp hp with heq | hmem
      · subst heq
        have hsome2 : (m t).isSome = true := hsome
        rw [hm] at hsome2
        simp at hsome2
      · exact ih ⟨p, hmem, hsome⟩

theorem findMatch_append_left {l1 : List (Matcher × String)} (l2 : List (Matcher × String))
    {t : String} (h : (findMatch l1 t).isSome) :
    findMatch (l1 ++ l2) t = findMatch l1 t := by
  induction l1 with
  | nil => simp [findMatch] at h
  | cons hd tl ih =>
    obtain ⟨m, c⟩ := hd
    rw [List.cons_append, findMatch, findMatch]
    cases hm : m t with
    | some s => rfl
    | none =>
      rw [findMatch, hm] at h
      exact ih h

/-- **C2.** For an input matched by both a built-in signature and a
custom signature supplied at construction, `check` returns the verdict
of the built-in signature: signatures are evaluated in registration
order (built-ins first, custom appended after), the first
case-insensitive search hit wins, and the verdict carries
`blocked = true`, that signature's category, the matched substring, and
confidence 0.9.  (The input is not empty or whitespace-only — the
early-exit branch of `check` — which holds for any text one of the
built-in signatures, all requiring word characters, matches.) -/
theorem C2_builtin_precedence (builtins custom : List (Matcher × String))
    (text : String)
    (hne : (text == "" || pyStrip text == "") = false)
    (hb : ∃ p ∈ builtins, (p.1 (pyStrip (pyLower text))).isSome)
    (_hc : ∃ p ∈ custom, (p.1 (pyStrip (pyLower text))).isSome) :
    ∃ category m,
      findMatch builtins (pyStrip (pyLower text)) = some (category, m) ∧
      ((SecurityFilter.make builtins custom).check text).1 =
        ⟨true, some category, some m, 9 / 10⟩ := by
  have hs := findMatch_isSome_of_mem hb
  obtain ⟨⟨category, m⟩, hfm⟩ := Option.isSome_iff_exists.mp hs
  refine ⟨category, m, hfm, ?_⟩
  rw [SecurityFilter.check, if_neg (by rw [hne]; exact Bool.false_ne_true)]
  show (match findMatch (builtins ++ custom) (pyStrip (pyLower text)) with
    | some (category, m) =>
      ((⟨true, some category, some m, 9 / 10⟩ : Verdict),
        { SecurityFilter.make builtins custom with
            blockedCount := (SecurityFilter.make builtins custom).blockedCount + 1 })
    | none =>
      if heuristicScore (pyStrip (pyLower text)) > 7 / 10 then
        (⟨true, some "heuristic", none, heuristicScore (pyStrip (pyLower text))⟩,
          { SecurityFilter.make builtins custom with
              blockedCount := (SecurityFilter.make builtins custom).blockedCount + 1 })
      else
        (⟨false, none, none, 0⟩,
          { SecurityFilter.make builtins custom with
              passedCount := (SecurityFilter.make builtins custom).passedCount + 1 })).1 =
    (⟨true, some category, some m, 9 / 10⟩ : Verdict)
  rw [findMatch_append_left custom hs, hfm]

/-- Concrete matcher standing for a compiled built-in signature. -/
def mBuiltin : Matcher :=
  fun t => if t == "attack now" then some "attack" else none

/-- Concrete matcher standing for a compiled custom signature matching
the same text. -/
def mCustom : Matcher :=
  fun t => if t == "attack now" then some "now" else none

theorem C2_builtin_precedence_witness :
    ∃ category m,
      findMatch [(mBuiltin, "builtin_cat")] (pyStrip (pyLower "Attack NOW ")) =
        some (category, m) ∧
      ((SecurityFilter.make [(mBuiltin, "builtin_cat")]
          [(mCustom, "custom_cat")]).check "Attack NOW ").1 =
        ⟨true, some category, some m, 9 / 10⟩ :=
  C2_builtin_precedence [(mBuiltin, "builtin_cat")] [(mCustom, "custom_cat")]
    "Attack NOW " (by decide)
    (⟨(mBuiltin, "builtin_cat"), by simp, by decide⟩)
    (⟨(mCustom, "custom_cat"), by simp, by decide⟩)

/-! ## `app.py` — AuditLog -/

/-- State of `AuditLog`: the entry list (each entry stamped with its
`logged_at` time, an opaque `Nat` here) and `_max`. -/
structure AuditLog (α : Type) where
  entries : List (Nat × α)
  maxEntries : Nat
deriving DecidableEq, Repr

/-- `AuditLog.__init__` (default capacity 10000). -/
def AuditLog.empty (α : Type) (maxEntries : Nat := 10000) : AuditLog α :=
  ⟨[], maxEntries⟩

/-- `AuditLog.log`: evict the oldest entry (`pop(0)`) when at capacity,
stamp, append.  `none` models the `IndexError` of `pop(0)` on an empty
list (reachable only with capacity 0). -/
def AuditLog.log {α : Type} (a : AuditLog α) (now : Nat) (e : α) :
    Option (AuditLog α) :=
  if a.entries.length ≥ a.maxEntries then
    match a.entries with
    | [] => none
    | _ :: rest => some { a with entries := rest ++ [(now, e)] }
  else
    some { a with entries := a.entries ++ [(now, e)] }

/-- A sequence of `log` calls. -/
def AuditLog.logAll {α : Type} (a : AuditLog α) :
    List (Nat × α) → Option (AuditLog α)
  | [] => some a
  | (t, e) :: es =>
    match a.log t e with
    | none => none
    | some a1 => a1.logAll es

theorem logAll_spec {α : Type} {N : Nat} (hN : 0 < N) :
    ∀ (es : List (Nat × α)) (a : AuditLog α), a.maxEntries = N →
      a.entries.length ≤ N →
      ∃ b, a.logAll es = some b ∧ b.maxEntries = N ∧
        b.entries = (a.entries ++ es).drop ((a.entries ++ es).length - N)
  | [], a, hmax, hle => ⟨a, rfl, hmax, by
      rw [List.append_nil, show a.entries.length - N = 0 from by omega]
      rfl⟩
  | (t, e) :: es, a, hmax, hle => by
    rw [AuditLog.logAll]
    by_cases hge : a.entries.length ≥ a.maxEntries
    · have hlen : a.entries.length = N := by omega
      cases hents : a.entries with
      | nil =>
        rw [hents] at hlen
        simp at hlen
        omega
      | cons h0 rest =>
        have hrest : rest.length = N - 1 := by
          rw [hents] at hlen
          simp at hlen
          omega
        rw [AuditLog.log, if_pos hge, hents]
        obtain ⟨b, hb, hbmax, hbent⟩ :=
          logAll_spec hN es { a with entries := rest ++ [(t, e)] } hmax
            (by simp; omega)
        refine ⟨b, hb, hbmax, ?_⟩
        rw [hbent]
        show ((rest ++ [(t, e)]) ++ es).drop
            (((rest ++ [(t, e)]) ++ es).length - N) =
          ((h0 :: rest) ++ (t, e) :: es).drop
            (((h0 :: rest) ++ (t, e) :: es).length - N)
        rw [List.append_assoc, List.singleton_append, List.cons_append]
        rw [show (rest ++ (t, e) :: es).length - N = es.length from by
          simp; omega]
        rw [show ((h0 :: (rest ++ (t, e) :: es)).length - N) = es.length + 1 from by
          simp; omega]
        rw [List.drop_succ_cons]
    · rw [AuditLog.log, if_neg hge]
      obtain ⟨b, hb, hbmax, hbent⟩ :=
        logAll_spec hN es { a with entries := a.entries ++ [(t, e)] } hmax
          (by simp; omega)
      refine ⟨b, hb, hbmax, ?_⟩
      rw [hbent]
      show ((a.entries ++ [(t, e)]) ++ es).drop
          (((a.entries ++ [(t, e)]) ++ es).length - N) =
        (a.entries ++ (t, e) :: es).drop ((a.entries ++ (t, e) :: es).length - N)
      rw [List.append_assoc, List.singleton_append]

/-- **C4.** Starting from an empty `AuditLog` of capacity `N > 0`
(default 10000), after any sequence of `log` calls the entry count never
exceeds `N`, `entries` holds exactly the most recent
`min(total insertions, N)` entries in insertion order, and a `log` on a
log at capacity first evicts exactly the oldest entry (`pop(0)`) before
appending. -/
theorem C4_audit_bounded {α : Type} (N : Nat) (hN : 0 < N) :
    (∀ es : List (Nat × α), ∃ b, (AuditLog.empty α N).logAll es = some b ∧
      b.entries = es.drop (es.length - N) ∧
      b.entries.length = min es.length N ∧
      b.entries.length ≤ N) ∧
    (∀ (a : AuditLog α) (t : Nat) (e : α), a.entries.length = a.maxEntries →
      0 < a.maxEntries →
      a.log t e = some { a with entries := a.entries.drop 1 ++ [(t, e)] }) := by
  constructor
  · intro es
    obtain ⟨b, hb, hbmax, hbent⟩ :=
      logAll_spec hN es (AuditLog.empty α N) rfl (by simp [AuditLog.empty])
    simp only [AuditLog.empty, List.nil_append] at hbent
    refine ⟨b, hb, hbent, ?_, ?_⟩
    · rw [hbent, List.length_drop]
      omega
    · rw [hbent, List.length_drop]
      omega
  · intro a t e hful hpos
    rw [AuditLog.log, if_pos (by omega)]
    cases hents : a.entries with
    | nil =>
      rw [hents] at hful
      simp at hful
      omega
    | cons h0 rest => rfl

theorem C4_audit_bounded_witness :
    ∃ b, (AuditLog.empty Nat 2).logAll [(0, 10), (1, 20), (2, 30)] = some b ∧
      b.entries = [(0, 10), (1, 20), (2, 30)].drop
        (([(0, 10), (1, 20), (2, 30)] : List (Nat × Nat)).length - 2) ∧
      b.entries.length = min ([(0, 10), (1, 20), (2, 30)] : List (Nat × Nat)).length 2 ∧
      b.entries.length ≤ 2 :=
  (C4_audit_bounded 2 (by decide)).1 [(0, 10), (1, 20), (2, 30)]

/-! ## `app.py` — the gateway pipeline -/

mutual
/-- `str(v)` of a parameter value: atoms carry their own rendering;
dicts render brace-delimited (the pipeline only tests emptiness of this
rendering and passes it to the filter, whose matchers are abstract, so
the exact repr formatting is immaterial; it is nonempty for dicts, as
`str({})` is). -/
def pvalueStr : PValue → String
  | .atom s => s
  | .dict d => "\x7b" ++ pdictStr d ++ "\x7d"
termination_by structural v => v

/-- Rendering of the bindings of a dict. -/
def pdictStr : PDict → String
  | .nil => ""
  | .cons k v rest => k ++ ": " ++ pvalueStr v ++ "; " ++ pdictStr rest
termination_by structural p => p
end

/-- `GatewayRequest`: `provider_config` values are carried as opaque
strings. -/
structure GatewayRequest where
  action : String
  provider : String
  parameters : PDict
  provider_config : List (String × String)

/-- `GatewayResponse`; `usage` carries the rate-limiter info dict. -/
structure GatewayResponse where
  success : Bool
  request_id : String
  provider : String
  result : Option PValue
  error : Option String
  usage : Option CheckOutcome

/-- One audit-trail entry written by `send_message`; optional fields are
the keys only some branches write. -/
structure AuditEntry where
  requestId : String
  action : String
  provider : String
  blocked : Bool
  reason : Option String
  apiKey : String
  elapsedMs : Option Nat
  error : Option String

/-- `ADAPTER_REGISTRY`: provider name ↦ (module, class). -/
def ADAPTER_REGISTRY : List (String × String × String) :=
  [("openai", "pulse_openai", "OpenAIAdapter"),
   ("anthropic", "pulse_anthropic", "AnthropicAdapter"),
   ("binance", "pulse_binance", "BinanceAdapter"),
   ("bybit", "pulse_bybit", "BybitAdapter"),
   ("kraken", "pulse_kraken", "KrakenAdapter"),
   ("okx", "pulse_okx", "OKXAdapter")]

/-- `", ".join(sorted(ADAPTER_REGISTRY.keys()))`, rendered. -/
def availableProviders : String :=
  "anthropic, binance, bybit, kraken, okx, openai"

/-- Outcome of the external stage-5 work (module import, adapter
construction, `adapter.send`, result extraction): a result, a
`ValueError` (recovered as a structured failure), or any other
exception (recovered as a provider fault). -/
inductive AdapterOutcome where
  | ok (result : Option PValue)
  | valueErr (msg : String)
  | fault (msg : String)

/-- Everything `send_message` consumes besides the gateway state: the
request id `uuid4()[:8]`, the clock values, the `PulseMessage`
constructor behaviour (`some e` = it raises with message `e`), and the
adapter behaviour as a function of the provider config and the built
message. -/
structure SendEnv where
  requestId : String
  nowSec : Nat
  logTime : Nat
  elapsedMs : Nat
  msgFail : Option String
  beh : List (String × String) → String × PDict → AdapterOutcome

/-- HTTP-level result of one `send_message` call: a 401, a 429, or an
HTTP-200 `GatewayResponse`. -/
inductive HttpOutcome where
  | unauthorized (detail : String)
  | tooManyRequests (detail : CheckOutcome)
  | ok (resp : GatewayResponse)

/-- Result state of one `send_message` call. -/
structure SendOutcome where
  http : HttpOutcome
  security : SecurityFilter
  limiter : RateLimiter
  audit : AuditLog AuditEntry

/-- `str(req.parameters.get(key, ""))`. -/
def paramStr (params : PDict) (key : String) : String :=
  match params.get key with
  | some v => pvalueStr v
  | none => ""

/-- The `text` / `prompt` / `message` fallback chain of stage 2. -/
def textToCheckOf (params : PDict) : String :=
  let t1 := paramStr params "text"
  let t2 := if t1 == "" then paramStr params "prompt" else t1
  if t2 == "" then paramStr params "message" else t2

/-- `send_message` (`app.py`): the full `/v1/send` pipeline over the
shared `SecurityFilter` / `RateLimiter` / `AuditLog` state.  `none`
models an uncaught internal exception (unreachable for well-formed
states). -/
def send_message (security : SecurityFilter) (limiter : RateLimiter)
    (audit : AuditLog AuditEntry) (env : SendEnv)
    (req : GatewayRequest) (xApiKey : String) : Option SendOutcome :=
  -- 1. Rate limiting
  if xApiKey == "" then
    some ⟨.unauthorized "Missing X-API-Key header. Get a key at pulse-gateway.",
      security, limiter, audit⟩
  else
    match limiter.check env.nowSec xApiKey with
    | none => none
    | some (rateInfo, limiter1) =>
      if rateInfo.isAllowed = false then
        some ⟨.tooManyRequests rateInfo, security, limiter1, audit⟩
      else
        -- 2. Security check (prompt injection)
        let textToCheck := textToCheckOf req.parameters
        let checked := security.check textToCheck
        let verdict := checked.1
        let security1 := checked.2
        if verdict.blocked then
          match audit.log env.logTime
              ⟨env.requestId, req.action, req.provider, true, verdict.category,
                pyTake xApiKey 8 ++ "...", none, none⟩ with
          | none => none
          | some audit1 =>
            some ⟨.ok ⟨false, env.requestId, req.provider, none,
              some ("Request blocked: potential " ++ verdict.category.getD "None"
                ++ " detected. If this is a false positive, contact support."),
              some rateInfo⟩, security1, limiter1, audit1⟩
        else
          -- 3. Sanitize parameters (strip secrets before logging)
          let safeParams := sanitize_parameters req.parameters
          -- 4. Create PULSE message
          match env.msgFail with
          | some e =>
            some ⟨.ok ⟨false, env.requestId, req.provider, none,
              some ("Invalid PULSE message: " ++ e), some rateInfo⟩,
              security1, limiter1, audit⟩
          | none =>
            -- 5. Load adapter and send
            match
              (if (ADAPTER_REGISTRY.lookup req.provider).isNone then
                AdapterOutcome.valueErr ("Unknown provider \x27" ++ req.provider
                  ++ "\x27. Available: " ++ availableProviders)
              else env.beh req.provider_config (req.action, safeParams)) with
            | .ok result =>
              match audit.log env.logTime
                  ⟨env.requestId, req.action, req.provider, false, none,
                    pyTake xApiKey 8 ++ "...", some env.elapsedMs, none⟩ with
              | none => none
              | some audit1 =>
                some ⟨.ok ⟨true, env.requestId, req.provider, result, none,
                  some rateInfo⟩, security1, limiter1, audit1⟩
            | .valueErr msg =>
              some ⟨.ok ⟨false, env.requestId, req.provider, none, some msg,
                some rateInfo⟩, security1, limiter1, audit⟩
            | .fault msg =>
              match audit.log env.logTime
                  ⟨env.requestId, req.action, req.provider, false, none,
                    pyTake xApiKey 8 ++ "...", none, some msg⟩ with
              | none => none
              | some audit1 =>
                some ⟨.ok ⟨false, env.requestId, req.provider, none,
                  some ("Provider error: " ++ msg), some rateInfo⟩,
                  security1, limiter1, audit1⟩

theorem log_isSome {α : Type} (a : AuditLog α) (t : Nat) (e : α)
    (h : 0 < a.maxEntries) : ∃ a1, a.log t e = some a1 := by
  rw [AuditLog.log]
  split
  · rename_i hge
    cases hents : a.entries with
    | nil =>
      rw [hents] at hge
      simp at hge
      omega
    | cons h0 rest => exact ⟨_, rfl⟩
  · exact ⟨_, rfl⟩

/-- **C5.** Once a request passes the quota-check stage, every possible
HTTP-200 response — security block, invalid-message failure,
unknown-provider failure, adapter fault, or success — carries that
request's quota diagnostic in its `usage` field, and the quota slot
consumed at the check stage is never returned on later-stage failure:
the final limiter state is exactly the post-check state, so usage still
reflects one consumed request after, e.g., an unknown-provider error. -/
theorem C5_usage_always_attached
    (security : SecurityFilter) (limiter : RateLimiter)
    (audit : AuditLog AuditEntry) (env : SendEnv) (req : GatewayRequest)
    (xApiKey : String) (co : CheckOutcome) (limiter1 : RateLimiter)
    (hkey : (xApiKey == "") = false)
    (hchk : limiter.check env.nowSec xApiKey = some (co, limiter1))
    (hallowed : co.isAllowed = true)
    (haud : 0 < audit.maxEntries) :
    ∃ out, send_message security limiter audit env req xApiKey = some out ∧
      (∃ resp, out.http = .ok resp ∧ resp.usage = some co) ∧
      out.limiter = limiter1 := by
  simp only [send_message, hkey, Bool.false_eq_true, if_false, hchk, hallowed,
    Bool.true_eq_false]
  by_cases hb : (security.check (textToCheckOf req.parameters)).1.blocked
  · obtain ⟨audit1, hlog⟩ := log_isSome audit env.logTime
      ⟨env.requestId, req.action, req.provider, true,
        (security.check (textToCheckOf req.parameters)).1.category,
        pyTake xApiKey 8 ++ "...", none, none⟩ haud
    rw [if_pos hb, hlog]
    exact ⟨_, rfl, ⟨_, rfl, rfl⟩, rfl⟩
  · rw [if_neg hb]
    cases hmf : env.msgFail with
    | some e => exact ⟨_, rfl, ⟨_, rfl, rfl⟩, rfl⟩
    | none =>
      simp only []
      generalize (if (ADAPTER_REGISTRY.lookup req.provider).isNone then
          AdapterOutcome.valueErr ("Unknown provider \x27" ++ req.provider
            ++ "\x27. Available: " ++ availableProviders)
        else env.beh req.provider_config
          (req.action, sanitize_parameters req.parameters)) = outcome
      cases outcome with
      | ok result =>
        obtain ⟨audit1, hlog⟩ := log_isSome audit env.logTime
          ⟨env.requestId, req.action, req.provider, false, none,
            pyTake xApiKey 8 ++ "...", some env.elapsedMs, none⟩ haud
        simp only []
        rw [hlog]
        exact ⟨_, rfl, ⟨_, rfl, rfl⟩, rfl⟩
      | valueErr msg => exact ⟨_, rfl, ⟨_, rfl, rfl⟩, rfl⟩
      | fault msg =>
        obtain ⟨audit1, hlog⟩ := log_isSome audit env.logTime
          ⟨env.requestId, req.action, req.provider, false, none,
            pyTake xApiKey 8 ++ "...", none, some msg⟩ haud
        simp only []
        rw [hlog]
        exact ⟨_, rfl, ⟨_, rfl, rfl⟩, rfl⟩

/-- Ledger for the `C5` witness run. -/
def rlC5 : RateLimiter :=
  ⟨[("free", 100)], [("k", "free")], [("k", 0)], [("k", 0)]⟩

/-- Environment for the `C5` witness run (adapter never reached: the
request names an unregistered provider). -/
def envC5 : SendEnv :=
  ⟨"req00001", 0, 0, 5, none, fun _ _ => .ok none⟩

/-- `/v1/send` request with `provider="nonexistent"` for the `C5`
witness. -/
def reqC5 : GatewayRequest :=
  ⟨"ACT.QUERY.DATA", "nonexistent", PDict.nil, []⟩

theorem C5_usage_always_attached_witness :
    ∃ out, send_message (SecurityFilter.make [] []) rlC5
        (AuditLog.empty AuditEntry 10) envC5 reqC5 "k" = some out ∧
      (∃ resp, out.http = .ok resp ∧
        resp.usage = some (.allowed "free" 100 1 99)) ∧
      out.limiter = ⟨[("free", 100)], [("k", "free")], [("k", 1)], [("k", 0)]⟩ :=
  C5_usage_always_attached (SecurityFilter.make [] []) rlC5
    (AuditLog.empty AuditEntry 10) envC5 reqC5 "k" (.allowed "free" 100 1 99)
    ⟨[("free", 100)], [("k", "free")], [("k", 1)], [("k", 0)]⟩
    (by decide) (by decide) (by decide) (by decide)

/-! ## C3 — providerConfig confidentiality -/

/-- The strings of the rate-limit info dict. -/
def checkOutcomeStrings : CheckOutcome → List String
  | .invalidKey m => [m]
  | .rateLimited tier _ _ _ m => [tier, m]
  | .allowed tier _ _ _ => [tier]

/-- Every string field of an audit entry. -/
def entryStrings (e : AuditEntry) : List String :=
  [e.requestId, e.action, e.provider, e.apiKey] ++ e.reason.toList ++ e.error.toList

/-- Every string field of a `GatewayResponse`. -/
def respStrings (r : GatewayResponse) : List String :=
  [r.request_id, r.provider] ++ r.error.toList ++ (r.result.map pvalueStr).toList
    ++ (r.usage.map checkOutcomeStrings).getD []

/-- `v` occurs as a substring of one of the strings. -/
def leaksInto (v : String) (strs : List String) : Bool :=
  strs.any fun s => containsSub s v

/-- The claim as stated: for every `/v1/send` run and every adapter
behaviour, no (nonempty) `providerConfig` value occurs in any audit
entry written by the call or in the returned response, and entries
written record the caller's API key only as its first 8 characters plus
`"..."`. -/
def ConfigNeverLeaked : Prop :=
  ∀ (security : SecurityFilter) (limiter : RateLimiter)
    (audit : AuditLog AuditEntry) (env : SendEnv) (req : GatewayRequest)
    (xApiKey : String) (out : SendOutcome),
    send_message security limiter audit env req xApiKey = some out →
    (∀ te ∈ out.audit.entries, te ∈ audit.entries ∨
      (te.2.apiKey = pyTake xApiKey 8 ++ "..." ∧
        ∀ v ∈ req.provider_config.map Prod.snd, v ≠ "" →
          leaksInto v (entryStrings te.2) = false)) ∧
    (∀ resp, out.http = .ok resp →
      ∀ v ∈ req.provider_config.map Prod.snd, v ≠ "" →
        leaksInto v (respStrings resp) = false)

/-- Security filter with no signatures for the C3 runs. -/
def cexSecurity : SecurityFilter := SecurityFilter.make [] []

/-- Ledger with one registered key for the C3 runs. -/
def cexLimiter : RateLimiter :=
  ⟨[("free", 100)], [("secretkey1", "free")], [("secretkey1", 0)],
   [("secretkey1", 0)]⟩

/-- Environment whose adapter raises an exception whose text is the
`password` entry of the provider config. -/
def cexEnv : SendEnv :=
  ⟨"req00001", 0, 0, 5, none, fun cfg _ => .fault ((cfg.lookup "password").getD "")⟩

/-- Request carrying a provider-config credential. -/
def cexReq : GatewayRequest :=
  ⟨"chat", "openai", PDict.nil, [("password", "HUNTER2TOPSECRET")]⟩

/-- The state `send_message` produces on the counterexample run: the
config value appears verbatim in the audit entry's `error` field and in
the response's `Provider error: …` message. -/
def cexOut : SendOutcome :=
  ⟨.ok ⟨false, "req00001", "openai", none,
      some "Provider error: HUNTER2TOPSECRET", some (.allowed "free" 100 1 99)⟩,
   ⟨[], 0, 1⟩,
   ⟨[("free", 100)], [("secretkey1", "free")], [("secretkey1", 1)],
    [("secretkey1", 0)]⟩,
   ⟨[(0, ⟨"req00001", "chat", "openai", false, none, "secretke...", none,
      some "HUNTER2TOPSECRET"⟩)], 10⟩⟩

/-- C3 as stated is false on the code: an adapter whose exception text
embeds a provider-config value makes `send_message` write that value
into the audit trail (the fault entry's `error` field) and echo it to
the caller in the `Provider error: …` response. -/
theorem C3_counterexample : ¬ ConfigNeverLeaked := by
  intro h
  obtain ⟨-, hresp⟩ := h cexSecurity cexLimiter (AuditLog.empty AuditEntry 10)
    cexEnv cexReq "secretkey1" cexOut rfl
  have hfalse := hresp
    ⟨false, "req00001", "openai", none,
      some "Provider error: HUNTER2TOPSECRET", some (.allowed "free" 100 1 99)⟩
    rfl "HUNTER2TOPSECRET" (by decide) (by decide)
  exact absurd hfalse (by decide)

theorem mem_log {α : Type} {a a1 : AuditLog α} {t : Nat} {e : α}
    (h : a.log t e = some a1) :
    ∀ te ∈ a1.entries, te ∈ a.entries ∨ te = (t, e) := by
  rw [AuditLog.log] at h
  split at h
  · cases hents : a.entries with
    | nil =>
      rw [hents] at h
      simp at h
    | cons h0 rest =>
      rw [hents] at h
      injection h with h
      subst h
      intro te hte
      have hte2 : te ∈ rest ++ [(t, e)] := hte
      rcases List.mem_append.mp hte2 with hin | hin
      · exact Or.inl (List.mem_cons_of_mem _ hin)
      · exact Or.inr (by simpa using hin)
  · injection h with h
    subst h
    intro te hte
    have hte2 : te ∈ a.entries ++ [(t, e)] := hte
    rcases List.mem_append.mp hte2 with hin | hin
    · exact Or.inl hin
    · exact Or.inr (by simpa using hin)

/-- Audit entries written by a `send_message` call always record the
caller's API key as its first 8 characters plus `"..."`. -/
theorem send_message_audit_growth
    (security : SecurityFilter) (limiter : RateLimiter)
    (audit : AuditLog AuditEntry) (env : SendEnv) (req : GatewayRequest)
    (xApiKey : String) (out : SendOutcome)
    (hrun : send_message security limiter audit env req xApiKey = some out) :
    ∀ te ∈ out.audit.entries, te ∈ audit.entries ∨
      te.2.apiKey = pyTake xApiKey 8 ++ "..." := by
  simp only [send_message] at hrun
  split at hrun
  · injection hrun with hrun
    subst hrun
    exact fun te hte => Or.inl hte
  · split at hrun
    · exact absurd hrun (by simp)
    · split at hrun
      · injection hrun with hrun
        subst hrun
        exact fun te hte => Or.inl hte
      · split at hrun
        · -- security block: one audit entry written
          split at hrun
          · exact absurd hrun (by simp)
          · rename_i audit1 hlog
            injection hrun with hrun
            subst hrun
            intro te hte
            rcases mem_log hlog te hte with hin | heq
            · exact Or.inl hin
            · exact Or.inr (by rw [heq])
        · split at hrun
          · -- invalid PULSE message: no audit entry
            injection hrun with hrun
            subst hrun
            exact fun te hte => Or.inl hte
          · split at hrun
            · -- adapter success: one audit entry written
              split at hrun
              · exact absurd hrun (by simp)
              · rename_i audit1 hlog
                injection hrun with hrun
                subst hrun
                intro te hte
                rcases mem_log hlog te hte with hin | heq
                · exact Or.inl hin
                · exact Or.inr (by rw [heq])
            · -- ValueError: no audit entry
              injection hrun with hrun
              subst hrun
              exact fun te hte => Or.inl hte
            · -- provider fault: one audit entry written
              split at hrun
              · exact absurd hrun (by simp)
              · rename_i audit1 hlog
                injection hrun with hrun
                subst hrun
                intro te hte
                rcases mem_log hlog te hte with hin | heq
                · exact Or.inl hin
                · exact Or.inr (by rw [heq])

/-- **C3 (amended).** The gateway itself writes no `providerConfig`
data: two runs that differ only in `provider_config` and receive the
same adapter outcome produce identical results (so audit trail and
response depend on the config only through what the adapter itself
returns or raises — the counterexample shows the adapter's exception
text is echoed), and every audit entry written records the API key only
as its first 8 characters plus `"..."`. -/
theorem C3_gateway_writes_no_config
    (security : SecurityFilter) (limiter : RateLimiter)
    (audit : AuditLog AuditEntry) (env : SendEnv)
    (req1 req2 : GatewayRequest) (xApiKey : String) (out1 : SendOutcome)
    (hact : req1.action = req2.action)
    (hprov : req1.provider = req2.provider)
    (hparams : req1.parameters = req2.parameters)
    (hbeh : env.beh req1.provider_config
        (req1.action, sanitize_parameters req1.parameters)
      = env.beh req2.provider_config
        (req2.action, sanitize_parameters req2.parameters))
    (hrun : send_message security limiter audit env req1 xApiKey = some out1) :
    send_message security limiter audit env req2 xApiKey = some out1 ∧
    (∀ te ∈ out1.audit.entries, te ∈ audit.entries ∨
      te.2.apiKey = pyTake xApiKey 8 ++ "...") := by
  constructor
  · obtain ⟨a1, p1, par1, cfg1⟩ := req1
    obtain ⟨a2, p2, par2, cfg2⟩ := req2
    have hact2 : a1 = a2 := hact
    have hprov2 : p1 = p2 := hprov
    have hparams2 : par1 = par2 := hparams
    subst hact2
    subst hprov2
    subst hparams2
    have hbeh2 : env.beh cfg1 (a1, sanitize_parameters par1)
        = env.beh cfg2 (a1, sanitize_parameters par1) := hbeh
    rw [← hrun]
    simp only [send_message]
    simp only [hbeh2]
  · exact send_message_audit_growth _ _ _ _ _ _ _ hrun

/-- Environment for the amended-C3 witness: the adapter ignores the
config. -/
def wEnvC3 : SendEnv := ⟨"req00001", 0, 0, 5, none, fun _ _ => .ok none⟩

/-- Two requests differing only in their provider config. -/
def wReqA : GatewayRequest := ⟨"chat", "openai", PDict.nil, [("password", "AAAA")]⟩

/-- See `wReqA`. -/
def wReqB : GatewayRequest := ⟨"chat", "openai", PDict.nil, [("password", "BBBB")]⟩

/-- Common output of the two witness runs. -/
def wOutC3 : SendOutcome :=
  ⟨.ok ⟨true, "req00001", "openai", none, none, some (.allowed "free" 100 1 99)⟩,
   ⟨[], 0, 1⟩,
   ⟨[("free", 100)], [("secretkey1", "free")], [("secretkey1", 1)],
    [("secretkey1", 0)]⟩,
   ⟨[(0, ⟨"req00001", "chat", "openai", false, none, "secretke...", some 5,
      none⟩)], 10⟩⟩

theorem C3_gateway_writes_no_config_witness :
    send_message cexSecurity cexLimiter (AuditLog.empty AuditEntry 10) wEnvC3
        wReqB "secretkey1" = some wOutC3 ∧
    (∀ te ∈ wOutC3.audit.entries, te ∈ (AuditLog.empty AuditEntry 10).entries ∨
      te.2.apiKey = pyTake "secretkey1" 8 ++ "...") :=
  C3_gateway_writes_no_config cexSecurity cexLimiter
    (AuditLog.empty AuditEntry 10) wEnvC3 wReqA wReqB "secretkey1" wOutC3
    rfl rfl rfl rfl rfl
